import Mathlib

/-!
Verification of the hospital (OsteoAge) repository's computational core:
the chronological-age arithmetic (`src/utils/age.ts`), the growth-projection
arithmetic of the results component, the inference-gateway response shaping
(`src/netlify/functions/analyze.js`), and the pre-upload file validation.

JavaScript numbers are embedded as rationals (`ℚ`); `Math.round` is embedded
as `⌊x + 1/2⌋`, which agrees with JavaScript's round-half-up semantics.
Parsed calendar dates are embedded by their local calendar components exactly
as the code reads them (`getFullYear`, `getMonth` — zero-based month —,
`getDate`).
-/

namespace Hospital

/-! ## Age/Date component (`src/utils/age.ts`) -/

/-- A successfully parsed `Date`, viewed through the three component getters
the code uses: `getFullYear`, `getMonth` (0–11), `getDate` (1–31). -/
structure ParsedDate where
  year : ℤ
  month : ℤ
  day : ℤ
deriving DecidableEq, Repr

/-- The `AgeResult` interface of `src/utils/age.ts`. -/
structure AgeResult where
  years : ℤ
  months : ℤ
deriving DecidableEq, Repr

/-- `calculateAge` from `src/utils/age.ts`, lines 12–34, applied to the two
already-parsed dates (`safeDate` fallbacks resolved): raw month/year deltas,
a one-month borrow when the reference day-of-month is smaller, a one-year
borrow when months go negative, and a final clamp of negative years to 0/0. -/
def calculateAge (birth reference : ParsedDate) : AgeResult :=
  let months0 := reference.month - birth.month
  let years0 := reference.year - birth.year
  let months1 := if reference.day < birth.day then months0 - 1 else months0
  let years1 := if months1 < 0 then years0 - 1 else years0
  let months2 := if months1 < 0 then months1 + 12 else months1
  if years1 < 0 then ⟨0, 0⟩ else ⟨years1, months2⟩

/-- The component ranges every parseable JavaScript `Date` satisfies:
`getMonth ∈ [0,11]`, `getDate ∈ [1,31]`. -/
def ValidDate (d : ParsedDate) : Prop :=
  0 ≤ d.month ∧ d.month ≤ 11 ∧ 1 ≤ d.day ∧ d.day ≤ 31

instance (d : ParsedDate) : Decidable (ValidDate d) := by
  unfold ValidDate; infer_instance

/-- Calendar order: `a` is on or before `b` (lexicographic on year, month, day). -/
def dateLE (a b : ParsedDate) : Prop :=
  a.year < b.year ∨
    (a.year = b.year ∧ (a.month < b.month ∨ (a.month = b.month ∧ a.day ≤ b.day)))

instance (a b : ParsedDate) : Decidable (dateLE a b) := by
  unfold dateLE; infer_instance

/-- Calendar order: `a` is strictly before `b`. -/
def dateLT (a b : ParsedDate) : Prop :=
  a.year < b.year ∨
    (a.year = b.year ∧ (a.month < b.month ∨ (a.month = b.month ∧ a.day < b.day)))

instance (a b : ParsedDate) : Decidable (dateLT a b) := by
  unfold dateLT; infer_instance

/-- C1: for every pair of parseable dates with the reference on or after the
birth date, `calculateAge` returns `years ≥ 0` and `months ∈ [0,11]`. -/
theorem calculateAge_nonneg_months_bounded (b r : ParsedDate)
    (hb : ValidDate b) (hr : ValidDate r) (hle : dateLE b r) :
    0 ≤ (calculateAge b r).years ∧
      0 ≤ (calculateAge b r).months ∧ (calculateAge b r).months ≤ 11 := by
  obtain ⟨hbm0, hbm1, hbd0, hbd1⟩ := hb
  obtain ⟨hrm0, hrm1, hrd0, hrd1⟩ := hr
  simp only [calculateAge]
  rcases hle with h | ⟨hy, h | ⟨hm, hd⟩⟩ <;>
    split_ifs <;> simp_all <;> omega

theorem calculateAge_nonneg_months_bounded_witness :
    ValidDate ⟨2010, 5, 15⟩ ∧ ValidDate ⟨2024, 5, 10⟩ ∧
      dateLE ⟨2010, 5, 15⟩ ⟨2024, 5, 10⟩ ∧
      (0 ≤ (calculateAge ⟨2010, 5, 15⟩ ⟨2024, 5, 10⟩).years ∧
        0 ≤ (calculateAge ⟨2010, 5, 15⟩ ⟨2024, 5, 10⟩).months ∧
        (calculateAge ⟨2010, 5, 15⟩ ⟨2024, 5, 10⟩).months ≤ 11) :=
  ⟨by decide, by decide, by decide,
    calculateAge_nonneg_months_bounded ⟨2010, 5, 15⟩ ⟨2024, 5, 10⟩
      (by decide) (by decide) (by decide)⟩

/-- C2: for parseable dates, if the reference strictly precedes the birth date
the result is exactly `{years := 0, months := 0}`, and in all cases neither
field is ever negative. -/
theorem calculateAge_clamps_to_zero (b r : ParsedDate)
    (hb : ValidDate b) (hr : ValidDate r) :
    (dateLT r b → calculateAge b r = ⟨0, 0⟩) ∧
      0 ≤ (calculateAge b r).years ∧ 0 ≤ (calculateAge b r).months := by
  obtain ⟨hbm0, hbm1, hbd0, hbd1⟩ := hb
  obtain ⟨hrm0, hrm1, hrd0, hrd1⟩ := hr
  constructor
  · intro hlt
    simp only [calculateAge]
    rcases hlt with h | ⟨hy, h | ⟨hm, hd⟩⟩ <;>
      split_ifs <;> simp_all <;> omega
  · simp only [calculateAge]
    split_ifs <;> simp_all <;> omega

theorem calculateAge_clamps_to_zero_witness :
    ValidDate ⟨2015, 3, 20⟩ ∧ ValidDate ⟨2014, 3, 20⟩ ∧
      dateLT ⟨2014, 3, 20⟩ ⟨2015, 3, 20⟩ ∧
      calculateAge ⟨2015, 3, 20⟩ ⟨2014, 3, 20⟩ = ⟨0, 0⟩ :=
  ⟨by decide, by decide, by decide,
    (calculateAge_clamps_to_zero ⟨2015, 3, 20⟩ ⟨2014, 3, 20⟩
      (by decide) (by decide)).1 (by decide)⟩

/-! ## Growth projection component (`AnalysisResults`, `src/unnamed/part_000`) -/

/-- JavaScript's `Math.round`: round half toward positive infinity. -/
def jround (q : ℚ) : ℤ := ⌊q + 1 / 2⌋

/-- `predictedHeight` from the `AnalysisResults` component: base height
(`heightCm || 140`, the JS `||` treating 0 as unset), plus 10, plus
`(probability − 0.5) * 12`, rounded. -/
def predictedHeight (heightCm probability : ℚ) : ℤ :=
  let base := if heightCm = 0 then 140 else heightCm
  let delta := (probability - 1 / 2) * 12
  jround (base + 10 + delta)

/-- The `HeightRange` interface of the types module. -/
structure HeightRange where
  min : ℤ
  max : ℤ
deriving DecidableEq, Repr

/-- `predictedRange` from the `AnalysisResults` component:
`{min: max(120, predicted − 4), max: predicted + 3}`. -/
def predictedRange (heightCm probability : ℚ) : HeightRange :=
  ⟨max 120 (predictedHeight heightCm probability - 4),
    predictedHeight heightCm probability + 3⟩

/-- `osteoAgeScore` from the `AnalysisResults` component:
`Math.round(Math.min(100, Math.max(55, 45 + probability * 50)))`. -/
def osteoAgeScore (probability : ℚ) : ℤ :=
  jround (min 100 (max 55 (45 + probability * 50)))

/-- One entry of the `sliderParameters` array: keys `id`, `label`, `value`,
`min`, `max`, `unit` of the source object literal. -/
structure SliderParam where
  id : String
  label : String
  value : ℤ
  min : ℤ
  max : ℤ
  unit : String
deriving DecidableEq, Repr

/-- `sliderParameters` from the `AnalysisResults` component:
`base = 60 + probability * 25`, per-factor offsets +5/−6/+2, each value
`Math.round(Math.min(100, …))`, with display bounds 40/30/20 to 100. -/
def sliderParameters (probability : ℚ) : List SliderParam :=
  let base := 60 + probability * 25
  [⟨"nutrition", "영양/식이", jround (min 100 (base + 5)), 40, 100, "%"⟩,
    ⟨"hormone", "호르몬 상태", jround (min 100 (base - 6)), 30, 100, "%"⟩,
    ⟨"activity", "운동/수면", jround (min 100 (base + 2)), 20, 100, "%"⟩]

/-- One point of the synthetic growth curve (`GrowthPoint` in the types
module). -/
structure GrowthPoint where
  age : ℚ
  height : ℚ
deriving DecidableEq, Repr

/-- `graphPoints` from the `AnalysisResults` component: 8 points starting at
age `max(4, chronologicalAge.years − 2)`, heights interpolated from
`heightCm || 140` toward the predicted adult height in sevenths. -/
def graphPoints (heightCm : ℚ) (chronYears : ℤ) (probability : ℚ) :
    List GrowthPoint :=
  let baseHeight := if heightCm = 0 then 140 else heightCm
  let startAge := max 4 (chronYears - 2)
  let totalPoints : ℕ := 8
  let heightDiff := ((predictedHeight heightCm probability : ℤ) : ℚ) - baseHeight
  (List.range totalPoints).map fun idx : ℕ =>
    ⟨(startAge : ℚ) + (idx : ℚ),
      baseHeight + heightDiff / ((max 1 (totalPoints - 1) : ℕ) : ℚ) * (idx : ℚ)⟩

/-! Spec-side definitions, written from the claims' words, to compare with the
source-side definitions above. -/

/-- Written from the spec's words: `clamp(x, lo, hi)`. -/
def spec_clamp (x lo hi : ℚ) : ℚ := min hi (max lo x)

/-- Written from the spec's words for C4: predicted adult height
`round((h, or 140 if h is unset) + 10 + (p − 0.5) * 12)`. -/
def spec_predictedHeight (heightCm probability : ℚ) : ℤ :=
  jround ((if heightCm = 0 then 140 else heightCm) + 10 +
    (probability - 1 / 2) * 12)

/-- Written from the spec's words for C4: range
`{min: max(120, predicted − 4), max: predicted + 3}`. -/
def spec_predictedRange (heightCm probability : ℚ) : HeightRange :=
  ⟨max 120 (spec_predictedHeight heightCm probability - 4),
    spec_predictedHeight heightCm probability + 3⟩

lemma jround_bounds {a b : ℤ} {q : ℚ} (h1 : (a : ℚ) ≤ q) (h2 : q ≤ (b : ℚ)) :
    a ≤ jround q ∧ jround q ≤ b := by
  constructor
  · exact Int.le_floor.mpr (by linarith)
  · have : jround q < b + 1 := Int.floor_lt.mpr (by
      have : ((b + 1 : ℤ) : ℚ) = (b : ℚ) + 1 := by push_cast; ring
      rw [this]; linarith)
    omega

/-- C4: for every probability and patient height, the predicted adult height
and the predicted range computed by the code coincide exactly with the spec's
formulas `round(base + 10 + (p − 0.5) * 12)` and
`{min: max(120, predicted − 4), max: predicted + 3}`. -/
theorem predictedHeight_matches_spec (p h : ℚ) :
    predictedHeight h p = spec_predictedHeight h p ∧
      predictedRange h p = spec_predictedRange h p := by
  refine ⟨rfl, ?_⟩
  simp only [predictedRange, spec_predictedRange]
  rfl

/-- C5: for every probability value, also outside `[0,1]`, the composite
score equals `round(clamp(45 + p * 50, 55, 100))` and lies in `[55, 100]`. -/
theorem osteoAgeScore_matches_spec (p : ℚ) :
    osteoAgeScore p = jround (spec_clamp (45 + p * 50) 55 100) ∧
      55 ≤ osteoAgeScore p ∧ osteoAgeScore p ≤ 100 := by
  refine ⟨rfl, ?_⟩
  have h1 : (55 : ℚ) ≤ min 100 (max 55 (45 + p * 50)) := by
    have := le_max_left (55 : ℚ) (45 + p * 50)
    exact le_min (by norm_num) this
  have h2 : min 100 (max 55 (45 + p * 50)) ≤ (100 : ℚ) := min_le_left _ _
  exact jround_bounds (by exact_mod_cast h1) (by exact_mod_cast h2)

/-- C6: for every probability in `[0,1]`, the slider parameter array equals
the spec's per-factor formulas `round(clamp(60 + p·25 + offset, lo, 100))`
with offsets +5/−6/+2 and lower bounds 40/30/20, and every value lies within
`[lower bound, 100]`. (For `p ∈ [0,1]` the lower clamp never binds, so the
code's upper-only `Math.min(100, …)` agrees with the clamped formula.) -/
theorem sliderParameters_matches_spec (p : ℚ) (hp0 : 0 ≤ p) (hp1 : p ≤ 1) :
    sliderParameters p =
      [⟨"nutrition", "영양/식이",
          jround (spec_clamp (60 + p * 25 + 5) 40 100), 40, 100, "%"⟩,
        ⟨"hormone", "호르몬 상태",
          jround (spec_clamp (60 + p * 25 - 6) 30 100), 30, 100, "%"⟩,
        ⟨"activity", "운동/수면",
          jround (spec_clamp (60 + p * 25 + 2) 20 100), 20, 100, "%"⟩] ∧
      ∀ sp ∈ sliderParameters p, sp.min ≤ sp.value ∧ sp.value ≤ 100 := by
  have hm : (0 : ℚ) ≤ p * 25 := by positivity
  have hM : p * 25 ≤ (25 : ℚ) := by nlinarith
  have e1 : max (40 : ℚ) (60 + p * 25 + 5) = 60 + p * 25 + 5 :=
    max_eq_right (by linarith)
  have e2 : max (30 : ℚ) (60 + p * 25 - 6) = 60 + p * 25 - 6 :=
    max_eq_right (by linarith)
  have e3 : max (20 : ℚ) (60 + p * 25 + 2) = 60 + p * 25 + 2 :=
    max_eq_right (by linarith)
  have m1 : min (100 : ℚ) (60 + p * 25 + 5) = 60 + p * 25 + 5 :=
    min_eq_right (by linarith)
  have m2 : min (100 : ℚ) (60 + p * 25 - 6) = 60 + p * 25 - 6 :=
    min_eq_right (by linarith)
  have m3 : min (100 : ℚ) (60 + p * 25 + 2) = 60 + p * 25 + 2 :=
    min_eq_right (by linarith)
  constructor
  · simp only [sliderParameters, spec_clamp, e1, e2, e3]
  · intro sp hsp
    simp only [sliderParameters, List.mem_cons, List.not_mem_nil, or_false]
      at hsp
    rcases hsp with hsp | hsp | hsp <;> subst hsp <;>
      simp only [m1, m2, m3]
    · obtain ⟨l, u⟩ := jround_bounds
        (a := 65) (b := 90) (q := 60 + p * 25 + 5)
        (by push_cast; linarith) (by push_cast; linarith)
      exact ⟨by omega, by omega⟩
    · obtain ⟨l, u⟩ := jround_bounds
        (a := 54) (b := 79) (q := 60 + p * 25 - 6)
        (by push_cast; linarith) (by push_cast; linarith)
      exact ⟨by omega, by omega⟩
    · obtain ⟨l, u⟩ := jround_bounds
        (a := 62) (b := 87) (q := 60 + p * 25 + 2)
        (by push_cast; linarith) (by push_cast; linarith)
      exact ⟨by omega, by omega⟩

theorem sliderParameters_matches_spec_witness :
    (0 : ℚ) ≤ 1 / 2 ∧ (1 : ℚ) / 2 ≤ 1 ∧
      ∀ sp ∈ sliderParameters (1 / 2), sp.min ≤ sp.value ∧ sp.value ≤ 100 :=
  ⟨by norm_num, by norm_num,
    (sliderParameters_matches_spec (1 / 2) (by norm_num) (by norm_num)).2⟩

/-- C3: with `heightCm` set (non-zero), the growth curve is exactly 8 points,
ages start at `max(4, chronologicalAge.years − 2)` and rise by 1 per point,
heights are the linear interpolation `h + (predicted − h) / 7 · index` from
the current height to the predicted adult height, and the first point's
height equals the current height. -/
theorem graphPoints_linear_interpolation (h p : ℚ) (yrs : ℤ) (hset : h ≠ 0) :
    (graphPoints h yrs p).length = 8 ∧
      (∀ i : ℕ, i < 8 →
        (graphPoints h yrs p)[i]? =
          some ⟨((max 4 (yrs - 2) : ℤ) : ℚ) + i,
            h + (((predictedHeight h p : ℤ) : ℚ) - h) / 7 * i⟩) ∧
      (graphPoints h yrs p)[0]? =
        some ⟨((max 4 (yrs - 2) : ℤ) : ℚ), h⟩ := by
  have key : ∀ i : ℕ, i < 8 →
      (graphPoints h yrs p)[i]? =
        some ⟨((max 4 (yrs - 2) : ℤ) : ℚ) + i,
          h + (((predictedHeight h p : ℤ) : ℚ) - h) / 7 * i⟩ := by
    intro i hi
    have h7 : ((max 1 (8 - 1) : ℕ) : ℚ) = 7 := by norm_num
    simp only [graphPoints, if_neg hset, List.getElem?_map,
      List.getElem?_range, hi, ite_true, h7]
    rfl
  refine ⟨?_, key, ?_⟩
  · simp only [graphPoints, List.length_map, List.length_range]
  · have h0 := key 0 (by norm_num)
    simpa using h0

theorem graphPoints_linear_interpolation_witness :
    (150 : ℚ) ≠ 0 ∧ (graphPoints 150 10 (1 / 2)).length = 8 :=
  ⟨by norm_num,
    (graphPoints_linear_interpolation 150 (1 / 2) 10 (by norm_num)).1⟩

/-- C7: the partial-month borrow rule on the spec's worked examples.
Birth 2010-06-15 (month index 5) against reference 2024-06-10 gives
13 years 11 months (day 10 < 15 borrows a month); against reference
2024-06-20 it gives exactly 14 years 0 months. -/
theorem calculateAge_borrow_examples :
    calculateAge ⟨2010, 5, 15⟩ ⟨2024, 5, 10⟩ = ⟨13, 11⟩ ∧
      calculateAge ⟨2010, 5, 15⟩ ⟨2024, 5, 20⟩ = ⟨14, 0⟩ := by
  decide

/-! ## Inference gateway response shaping (`src/netlify/functions/analyze.js`) -/

/-- A JSON value, as produced by `JSON.parse` on the upstream model's output
text. -/
inductive JValue where
  | num (q : ℚ)
  | str (s : String)
  | bool (b : Bool)
  | null
  | arr (elems : List JValue)
  | obj (fields : List (String × JValue))

/-- The parsed upstream output, viewed through the four fields the handler
reads; `none` models an absent field. -/
structure Parsed where
  finding : Option JValue
  probability : Option JValue
  severity : Option JValue
  boundingBoxes : Option JValue

/-- The success response's `probability` (handler, `analyze.js` lines
165–168): `typeof parsed.probability === 'number' ?
Math.max(0, Math.min(1, parsed.probability)) : 0`. -/
def respProbability (parsed : Parsed) : ℚ :=
  match parsed.probability with
  | some (JValue.num q) => max 0 (min 1 q)
  | _ => 0

/-- The success response's `severity` (handler, `analyze.js` lines 174–177):
the upstream value when it is exactly the string `High`, `Medium` or `Low`,
and `Low` otherwise (strict `===` is false on every non-string value). -/
def respSeverity (parsed : Parsed) : String :=
  match parsed.severity with
  | some (JValue.str s) =>
      if s = "High" ∨ s = "Medium" ∨ s = "Low" then s else "Low"
  | _ => "Low"

/-- The success response's `boundingBoxes` (handler, `analyze.js` line 178):
`Array.isArray(parsed.boundingBoxes) ? parsed.boundingBoxes : []`. -/
def respBoundingBoxes (parsed : Parsed) : List JValue :=
  match parsed.boundingBoxes with
  | some (JValue.arr xs) => xs
  | _ => []

/-- C8: for every successfully parsed upstream output, the gateway's
probability lies in `[0,1]` (and equals the clamp of the upstream number when
one is present, also out-of-range ones), and the severity is passed through
exactly when the upstream value is one of High/Medium/Low and defaults to
`Low` in every other case. -/
theorem analyze_clamps_probability_and_severity (parsed : Parsed) :
    (0 ≤ respProbability parsed ∧ respProbability parsed ≤ 1) ∧
      (∀ q : ℚ, parsed.probability = some (JValue.num q) →
        respProbability parsed = max 0 (min 1 q)) ∧
      (∀ s : String, (s = "High" ∨ s = "Medium" ∨ s = "Low") →
        parsed.severity = some (JValue.str s) → respSeverity parsed = s) ∧
      ((∀ s : String, (s = "High" ∨ s = "Medium" ∨ s = "Low") →
        parsed.severity ≠ some (JValue.str s)) →
        respSeverity parsed = "Low") := by
  obtain ⟨f, pr, sv, bb⟩ := parsed
  refine ⟨?_, ?_, ?_, ?_⟩
  · rcases pr with _ | v
    · simp [respProbability]
    · rcases v with q | _s | _b | _ | _xs | _fs
      · exact ⟨le_max_left 0 (min 1 q),
          max_le (by norm_num) (min_le_left 1 q)⟩
      all_goals simp [respProbability]
  · intro q hq
    have hq' : pr = some (JValue.num q) := hq
    subst hq'
    rfl
  · intro s hs heq
    subst heq
    rcases hs with rfl | rfl | rfl <;> simp [respSeverity]
  · intro hall
    rcases sv with _ | v
    · simp [respSeverity]
    · rcases v with q | s | b | _ | xs | fs <;> simp only [respSeverity]
      by_cases hc : s = "High" ∨ s = "Medium" ∨ s = "Low"
      · exact absurd rfl (hall s hc)
      · exact if_neg hc

theorem analyze_clamps_probability_and_severity_witness :
    respProbability ⟨none, some (JValue.num 2), some (JValue.str "Medium"),
        none⟩ = max 0 (min 1 2) ∧
      respSeverity ⟨none, some (JValue.num 2), some (JValue.str "Medium"),
        none⟩ = "Medium" :=
  ⟨(analyze_clamps_probability_and_severity
      ⟨none, some (JValue.num 2), some (JValue.str "Medium"), none⟩).2.1
      2 rfl,
    (analyze_clamps_probability_and_severity
      ⟨none, some (JValue.num 2), some (JValue.str "Medium"), none⟩).2.2.1
      "Medium" (Or.inr (Or.inl rfl)) rfl⟩

/-- C10: whenever the parsed upstream output's `probability` field is missing
or not a number, the gateway responds with probability exactly 0; whenever
`boundingBoxes` is missing or not an array, it responds with the empty
array. -/
theorem analyze_defaults_probability_and_boxes (parsed : Parsed) :
    ((∀ q : ℚ, parsed.probability ≠ some (JValue.num q)) →
        respProbability parsed = 0) ∧
      ((∀ xs : List JValue, parsed.boundingBoxes ≠ some (JValue.arr xs)) →
        respBoundingBoxes parsed = []) := by
  obtain ⟨f, pr, sv, bb⟩ := parsed
  constructor
  · intro hnum
    rcases pr with _ | v
    · simp [respProbability]
    · rcases v with q | _s | _b | _ | _xs | _fs
      · exact absurd rfl (hnum q)
      all_goals simp [respProbability]
  · intro harr
    rcases bb with _ | v
    · simp [respBoundingBoxes]
    · rcases v with _q | _s | _b | _ | xs | _fs
      · simp [respBoundingBoxes]
      · simp [respBoundingBoxes]
      · simp [respBoundingBoxes]
      · simp [respBoundingBoxes]
      · exact absurd rfl (harr xs)
      · simp [respBoundingBoxes]

theorem analyze_defaults_probability_and_boxes_witness :
    respProbability ⟨none, some (JValue.str "0.4"), none,
        some (JValue.str "[]")⟩ = 0 ∧
      respBoundingBoxes ⟨none, some (JValue.str "0.4"), none,
        some (JValue.str "[]")⟩ = [] :=
  ⟨(analyze_defaults_probability_and_boxes
      ⟨none, some (JValue.str "0.4"), none, some (JValue.str "[]")⟩).1
      (fun _q h => JValue.noConfusion (Option.some.inj h)),
    (analyze_defaults_probability_and_boxes
      ⟨none, some (JValue.str "0.4"), none, some (JValue.str "[]")⟩).2
      (fun _xs h => JValue.noConfusion (Option.some.inj h))⟩

/-! ## Pre-upload file validation (`FileUpload`, `src/unnamed/part_000`) -/

/-- The two fields of a selected `File` that the validator reads; the name
is embedded as its character sequence so that `toLowerCase`/`endsWith` stay
computable. -/
structure JsFile where
  name : List Char
  size : ℕ
deriving DecidableEq, Repr

/-- Modelled from the spec: the constants module imported by `FileUpload`
(`MAX_FILE_SIZE_MB`, `SUPPORTED_FILE_TYPES`) is not among the source files;
the spec fixes only a fixed megabyte ceiling and JPG/PNG as the supported
types, so the two constants are parameters of `validateFile` below (proved
for every value) and this list — standing for
`Object.values(SUPPORTED_FILE_TYPES).flat()` — instantiates them in
witnesses. -/
def specSupportedExts : List (List Char) :=
  [".jpg".data, ".jpeg".data, ".png".data]

/-- `validateFile` from the `FileUpload` component: reject when
`file.size > maxMB * 1024 * 1024`, then reject when no supported extension
ends the lowercased file name, else clear the error and accept. Returns the
error state written by `setError` and the boolean result. -/
def validateFile (exts : List (List Char)) (maxMB : ℕ) (f : JsFile) :
    Option String × Bool :=
  if maxMB * 1024 * 1024 < f.size then
    (some ("파일 크기는 " ++ toString maxMB ++ "MB를 초과할 수 없습니다."), false)
  else if !(exts.any fun ext => ext.isSuffixOf (f.name.map Char.toLower)) then
    (some "지원하지 않는 파일 형식입니다. JPG 또는 PNG 파일을 업로드해주세요.", false)
  else (none, true)

/-- `handleDrop` from the `FileUpload` component, on its validation path:
no-op when disabled or no file was dropped, else run `validateFile` on the
first file and invoke `onFileSelect` exactly when it returns true. The
second component records whether `onFileSelect` (which triggers the network
call) was invoked. -/
def handleDrop (exts : List (List Char)) (maxMB : ℕ) (disabled : Bool)
    (files : List JsFile) (error0 : Option String) : Option String × Bool :=
  if disabled then (error0, false)
  else
    match files with
    | [] => (error0, false)
    | f :: _ => validateFile exts maxMB f

/-- C9: dropping a file whose lowercased name ends in no supported extension,
or whose size exceeds the megabyte ceiling by at least one byte, leaves a
validation message and never invokes the file-select callback (hence no
network call); a file passing both checks clears the error and is
forwarded. -/
theorem fileUpload_validation_gates (exts : List (List Char)) (maxMB : ℕ)
    (f : JsFile) (error0 : Option String) :
    ((∀ ext ∈ exts, ext.isSuffixOf (f.name.map Char.toLower) = false) →
        (handleDrop exts maxMB false [f] error0).2 = false ∧
          ∃ msg, (handleDrop exts maxMB false [f] error0).1 = some msg) ∧
      (maxMB * 1024 * 1024 + 1 ≤ f.size →
        (handleDrop exts maxMB false [f] error0).2 = false ∧
          ∃ msg, (handleDrop exts maxMB false [f] error0).1 = some msg) ∧
      (f.size ≤ maxMB * 1024 * 1024 →
        (exts.any fun ext => ext.isSuffixOf (f.name.map Char.toLower)) =
          true →
        handleDrop exts maxMB false [f] error0 = (none, true)) := by
  have hdrop : handleDrop exts maxMB false [f] error0 =
      validateFile exts maxMB f := by
    simp [handleDrop]
  rw [hdrop]
  refine ⟨?_, ?_, ?_⟩
  · intro hext
    have hany : (exts.any fun ext =>
        ext.isSuffixOf (f.name.map Char.toLower)) = false := by
      simp only [List.any_eq_false]
      intro x hx
      simp [hext x hx]
    unfold validateFile
    rw [hany]
    split_ifs with h1 h2
    · exact ⟨rfl, _, rfl⟩
    · exact ⟨rfl, _, rfl⟩
    · simp at h2
  · intro hsz
    unfold validateFile
    rw [if_pos (by omega)]
    exact ⟨rfl, _, rfl⟩
  · intro hsz hany
    unfold validateFile
    rw [if_neg (by omega), hany]
    simp

theorem fileUpload_validation_gates_witness :
    ((⟨"scan.png".data, 100⟩ : JsFile).size ≤ 10 * 1024 * 1024) ∧
      (specSupportedExts.any fun ext =>
        ext.isSuffixOf
          ((⟨"scan.png".data, 100⟩ : JsFile).name.map Char.toLower)) =
        true ∧
      handleDrop specSupportedExts 10 false [⟨"scan.png".data, 100⟩] none =
        (none, true) :=
  ⟨by norm_num, by decide,
    (fileUpload_validation_gates specSupportedExts 10 ⟨"scan.png".data, 100⟩
      none).2.2 (by norm_num) (by decide)⟩

end Hospital
